import Mathlib

/-!
Verification development for the Planly synchronization layer.

The definitions below are a shallow embedding of the repository's storage
code: `src/services/storage.ts` (the localStorage + Drive-file variant),
`src/unnamed/part_005` (the Drive file adapter) and `src/unnamed/part_006`
(the Firestore variant).  Browser storage is modelled structurally: each
fixed localStorage key becomes an `Option` field of `LocalStore` (a `none`
field is an absent key), and the JSON round trip performed by each
`getItem`/`setItem` pair is modelled separately by the `Json`
encoder/decoder development further down.  Network calls are modelled by
explicit result oracles (`Except` valued parameters), and the
nondeterministic id/timestamp generators by explicit string parameters.
-/

namespace Planly

/-! ### Data model, from `types.ts` (src/unnamed/part_004) -/

structure UserConfig where
  username : String
  password : Option String
deriving DecidableEq

inductive EventCategory
  | work
  | personal
  | important
  | other
deriving DecidableEq

structure CalendarEvent where
  id : String
  title : String
  description : String
  date : String
  category : EventCategory
deriving DecidableEq

/-- The payload of `createEvent`: `Omit<CalendarEvent, 'id'>`. -/
structure EventData where
  title : String
  description : String
  date : String
  category : EventCategory
deriving DecidableEq

inductive ItemStatus
  | pending
  | purchased
deriving DecidableEq

structure WishlistItem where
  id : String
  listId : String
  name : String
  url : String
  description : String
  status : ItemStatus
  dateAdded : String
deriving DecidableEq

/-- The payload of `createWishlistItem`: `Omit<WishlistItem, 'id' | 'dateAdded'>`. -/
structure WishlistItemData where
  listId : String
  name : String
  url : String
  description : String
  status : ItemStatus
deriving DecidableEq

structure Wishlist where
  id : String
  title : String
  description : Option String
  createdAt : String
deriving DecidableEq

structure DriveConfig where
  clientId : String
  apiKey : String
  connected : Bool
  fileId : Option String
deriving DecidableEq

def INITIAL_CREDENTIALS : UserConfig :=
  { username := "im_suka", password := some "ThisIsThePassword" }

/-! ### Local Store state

`storage.ts` keeps four fixed localStorage keys (`planly_auth`,
`planly_events`, `planly_wishlist`, `planly_drive_config`).  Each key is a
field; `none` means the key was never written. -/

structure LocalStore where
  auth : Option UserConfig
  events : Option (List CalendarEvent)
  wishlist : Option (List WishlistItem)
  driveConfig : Option DriveConfig
deriving DecidableEq

def emptyStore : LocalStore :=
  { auth := none, events := none, wishlist := none, driveConfig := none }

/-- Environment variables `VITE_GOOGLE_CLIENT_ID` / `VITE_GOOGLE_API_KEY`
(empty string models an unset variable, as in the source's `|| ''`). -/
structure Env where
  clientId : String
  apiKey : String
deriving DecidableEq

/-! ### storage.ts reads -/

/-- `getEvents`: stored list, or `[]` on first use. -/
def getEvents (s : LocalStore) : List CalendarEvent :=
  s.events.getD []

/-- `getWishlist`: stored list, or `[]` on first use. -/
def getWishlist (s : LocalStore) : List WishlistItem :=
  s.wishlist.getD []

/-- `getAuthInfo`: stored record, or `INITIAL_CREDENTIALS` (also the catch
branch returns `INITIAL_CREDENTIALS`). -/
def getAuthInfo (s : LocalStore) : UserConfig :=
  s.auth.getD INITIAL_CREDENTIALS

/-- `getDriveConfig`: stored config or the empty default, then env vars
force-override `clientId` / `apiKey` when present. -/
def getDriveConfig (env : Env) (s : LocalStore) : DriveConfig :=
  let config := s.driveConfig.getD
    { clientId := "", apiKey := "", connected := false, fileId := none }
  let config := if env.clientId ≠ "" then { config with clientId := env.clientId } else config
  if env.apiKey ≠ "" then { config with apiKey := env.apiKey } else config

/-- `setDriveConfig`: writes the config record. -/
def setDriveConfig (s : LocalStore) (c : DriveConfig) : LocalStore :=
  { s with driveConfig := some c }

/-! ### storage.ts mutations (local part) -/

/-- JS `Array.prototype.findIndex`: index of the first element satisfying
`p`, or `none` (the source's `-1`). -/
def findIndex {α : Type} (p : α → Bool) : List α → Option Nat
  | [] => none
  | a :: rest => if p a then some 0 else (findIndex p rest).map (· + 1)

/-- `createEvent` without the push: read, append `{...event, id}`, write.
The generated id is an explicit parameter. -/
def createEventLocal (s : LocalStore) (ev : EventData) (newId : String) :
    LocalStore × CalendarEvent :=
  let events := getEvents s
  let newEvent : CalendarEvent :=
    { id := newId, title := ev.title, description := ev.description,
      date := ev.date, category := ev.category }
  ({ s with events := some (events ++ [newEvent]) }, newEvent)

/-- `updateEvent` without the push: `findIndex` on id; replace in place when
found, otherwise do nothing (no write, no notify). -/
def updateEventLocal (s : LocalStore) (ev : CalendarEvent) : LocalStore :=
  let events := getEvents s
  match findIndex (fun e => e.id = ev.id) events with
  | some index => { s with events := some (events.set index ev) }
  | none => s

/-- `deleteEvent` without the push: filter out the id, write back. -/
def deleteEventLocal (s : LocalStore) (id : String) : LocalStore :=
  { s with events := some ((getEvents s).filter (fun e => e.id ≠ id)) }

/-- `createWishlistItem` without the push; id and `dateAdded` timestamp are
explicit parameters. -/
def createWishlistItemLocal (s : LocalStore) (item : WishlistItemData)
    (newId dateAdded : String) : LocalStore × WishlistItem :=
  let list := getWishlist s
  let newItem : WishlistItem :=
    { id := newId, listId := item.listId, name := item.name, url := item.url,
      description := item.description, status := item.status, dateAdded := dateAdded }
  ({ s with wishlist := some (list ++ [newItem]) }, newItem)

/-- `updateWishlistItem` without the push. -/
def updateWishlistItemLocal (s : LocalStore) (item : WishlistItem) : LocalStore :=
  let list := getWishlist s
  match findIndex (fun i => i.id = item.id) list with
  | some index => { s with wishlist := some (list.set index item) }
  | none => s

/-- `deleteWishlistItem` without the push. -/
def deleteWishlistItemLocal (s : LocalStore) (id : String) : LocalStore :=
  { s with wishlist := some ((getWishlist s).filter (fun i => i.id ≠ id)) }

/-! ### Operation sequences over the Local Store

An operation carries the values that the id / timestamp generators returned
for it, so a run over a sequence of operations is deterministic. -/

inductive StoreOp
  | createEv (ev : EventData) (newId : String)
  | updateEv (ev : CalendarEvent)
  | deleteEv (id : String)
  | createWi (item : WishlistItemData) (newId dateAdded : String)
  | updateWi (item : WishlistItem)
  | deleteWi (id : String)
deriving DecidableEq

def applyOp (s : LocalStore) : StoreOp → LocalStore
  | .createEv ev newId => (createEventLocal s ev newId).1
  | .updateEv ev => updateEventLocal s ev
  | .deleteEv id => deleteEventLocal s id
  | .createWi item newId dateAdded => (createWishlistItemLocal s item newId dateAdded).1
  | .updateWi item => updateWishlistItemLocal s item
  | .deleteWi id => deleteWishlistItemLocal s id

/-- Apply a sequence of operations to the Local Store, in order. -/
def runOps (s : LocalStore) (ops : List StoreOp) : LocalStore :=
  ops.foldl applyOp s

/-- Modelled from the spec: replay of a single operation against a bare
events table (operations on the wishlist table leave it unchanged). -/
def eventTableStep (t : List CalendarEvent) : StoreOp → List CalendarEvent
  | .createEv ev newId =>
      t ++ [{ id := newId, title := ev.title, description := ev.description,
              date := ev.date, category := ev.category }]
  | .updateEv ev =>
      match findIndex (fun e => e.id = ev.id) t with
      | some index => t.set index ev
      | none => t
  | .deleteEv id => t.filter (fun e => e.id ≠ id)
  | _ => t

/-- Modelled from the spec: replay of a single operation against a bare
wishlist table. -/
def wishTableStep (t : List WishlistItem) : StoreOp → List WishlistItem
  | .createWi item newId dateAdded =>
      t ++ [{ id := newId, listId := item.listId, name := item.name, url := item.url,
              description := item.description, status := item.status,
              dateAdded := dateAdded }]
  | .updateWi item =>
      match findIndex (fun i => i.id = item.id) t with
      | some index => t.set index item
      | none => t
  | .deleteWi id => t.filter (fun i => i.id ≠ id)
  | _ => t

/-- Modelled from the spec: replay a whole sequence against an empty events
table. -/
def replayEvents (ops : List StoreOp) : List CalendarEvent :=
  ops.foldl eventTableStep []

/-- Modelled from the spec: replay a whole sequence against an empty
wishlist table. -/
def replayWishlist (ops : List StoreOp) : List WishlistItem :=
  ops.foldl wishTableStep []

/-! ### Identifier uniqueness bookkeeping (for the uniqueness claims) -/

def eventIds (s : LocalStore) : List String :=
  (getEvents s).map (fun e => e.id)

def wishIds (s : LocalStore) : List String :=
  (getWishlist s).map (fun i => i.id)

/-- Holds when the generated id of a create is not already present in its
table at the moment the create executes. -/
def freshOk (s : LocalStore) : StoreOp → Bool
  | .createEv _ newId => !(decide (newId ∈ eventIds s))
  | .createWi _ newId _ => !(decide (newId ∈ wishIds s))
  | _ => true

/-- Holds when, along the run, every create's generated id is fresh for its
table. -/
def freshCreates (s : LocalStore) : List StoreOp → Bool
  | [] => true
  | op :: rest => freshOk s op && freshCreates (applyOp s op) rest

/-! ### Sync orchestration, from `storage.ts`

Network results of the Drive adapter are supplied as oracles; `now` is the
ISO timestamp `new Date().toISOString()` returned at push time. -/

abbrev SyncErr := String

/-- The object built by `getFullDatabase` and persisted as `db.json`:
`{ auth, events, wishlist, lastUpdated }`. -/
structure Snapshot where
  auth : UserConfig
  events : List CalendarEvent
  wishlist : List WishlistItem
  lastUpdated : String
deriving DecidableEq

def getFullDatabase (s : LocalStore) (now : String) : Snapshot :=
  { auth := getAuthInfo s, events := getEvents s, wishlist := getWishlist s,
    lastUpdated := now }

/-- `syncToDrive`: guarded by config/token checks; the whole push is inside
`try { ... } catch { console.error }`, so a failed `updateData` (oracle
`pushRes`) never escapes.  The result type records what the caller of
`syncToDrive` could observe as an exception. -/
def syncToDrive (env : Env) (s : LocalStore) (hasToken : Bool) (now : String)
    (pushRes : Snapshot → Except SyncErr Unit) : Except SyncErr Unit :=
  let config := getDriveConfig env s
  if !(config.connected && config.fileId.isSome && hasToken) then Except.ok ()
  else
    match pushRes (getFullDatabase s now) with
    | Except.ok _ => Except.ok ()
    | Except.error _e => Except.ok ()

/-- A local mutation followed by its push, as in `createEvent` /
`updateEvent` / ... : the mutation's caller sees an error only if
`syncToDrive` lets one escape.  `updateEv` / `updateWi` only push when the
record was found, as in the source. -/
def mutateWithPush (env : Env) (s : LocalStore) (op : StoreOp) (hasToken : Bool)
    (now : String) (pushRes : Snapshot → Except SyncErr Unit) :
    Except SyncErr LocalStore :=
  let s1 := applyOp s op
  let pushed : Bool :=
    match op with
    | .updateEv ev => (findIndex (fun e => e.id = ev.id) (getEvents s)).isSome
    | .updateWi item => (findIndex (fun i => i.id = item.id) (getWishlist s)).isSome
    | _ => true
  if pushed then
    match syncToDrive env s1 hasToken now pushRes with
    | Except.ok _ => Except.ok s1
    | Except.error e => Except.error e
  else Except.ok s1

/-- `syncFromDrive`: no-op unless connected; `initDatabaseFile` (oracle
`initFileRes`, fed the current local snapshot as the creation default)
resolves the file id, which is persisted by `setDriveConfig` *before* the
`getData` fetch (oracle `getDataRes`); on success the three data keys are
overwritten and the listeners are notified; any error is rethrown after
logging. -/
def syncFromDrive (env : Env) (s : LocalStore) (now : String)
    (initFileRes : Snapshot → Except SyncErr String)
    (getDataRes : String → Except SyncErr Snapshot) :
    Except SyncErr Unit × LocalStore :=
  let config := getDriveConfig env s
  if !config.connected then (Except.ok (), s)
  else
    let currentData := getFullDatabase s now
    match initFileRes currentData with
    | Except.error e => (Except.error e, s)
    | Except.ok fileId =>
        let s1 := setDriveConfig s { config with fileId := some fileId }
        match getDataRes fileId with
        | Except.error e => (Except.error e, s1)
        | Except.ok data =>
            let s2 := { s1 with auth := some data.auth, events := some data.events,
                                wishlist := some data.wishlist }
            (Except.ok (), s2)

/-! ### Subscription Bus

`storage.ts` (and the Firestore variant identically) keeps
`const listeners: Set<Listener> = new Set()`.  A JS `Set` is an insertion-
ordered entry table; `delete` empties the entry's slot in place, `add`
appends when the value is absent, and `forEach` walks the live table by
index — added entries are visited, entries emptied before being reached are
skipped.  Listeners are identified by `ListenerId`; what a listener does
when invoked is described by a callback table `CbEnv` mapping its id to the
bus commands it issues re-entrantly. -/

abbrev ListenerId := Nat

inductive BusCmd
  | sub (id : ListenerId)
  | unsub (id : ListenerId)
deriving DecidableEq

structure Bus where
  entries : List (Option ListenerId)
deriving DecidableEq

/-- Membership in the live set (`Set.prototype.has`). -/
def Bus.active (b : Bus) (id : ListenerId) : Bool :=
  decide ((some id) ∈ b.entries)

/-- `listeners.add(listener)`: append if absent. -/
def subscribe (b : Bus) (id : ListenerId) : Bus :=
  if b.active id then b else { entries := b.entries ++ [some id] }

def eraseFirstEntry : List (Option ListenerId) → ListenerId → List (Option ListenerId)
  | [], _ => []
  | e :: rest, id => if e = some id then none :: rest else e :: eraseFirstEntry rest id

/-- `listeners.delete(listener)` — the unsubscribe closure returned by
`subscribe`: empty the entry's slot; a no-op when absent. -/
def unsubscribe (b : Bus) (id : ListenerId) : Bus :=
  { entries := eraseFirstEntry b.entries id }

abbrev CbEnv := List (ListenerId × List BusCmd)

def cbLookup (cbs : CbEnv) (id : ListenerId) : List BusCmd :=
  match cbs.find? (fun p => p.1 = id) with
  | some p => p.2
  | none => []

/-- Effect of one callback body on the bus. -/
def runCmds (b : Bus) : List BusCmd → Bus
  | [] => b
  | BusCmd.sub id :: rest => runCmds (subscribe b id) rest
  | BusCmd.unsub id :: rest => runCmds (unsubscribe b id) rest

/-- `listeners.forEach(l => l())` walked by index over the live entry
table; the fuel bounds the walk (any fuel at least the final table length
gives the full walk).  Returns the bus and the invocation log. -/
def notifyGo (cbs : CbEnv) : Nat → Nat → Bus → List ListenerId → Bus × List ListenerId
  | 0, _, b, log => (b, log)
  | Nat.succ fuel, i, b, log =>
      if i < b.entries.length then
        match b.entries.getD i none with
        | none => notifyGo cbs fuel (i + 1) b log
        | some id => notifyGo cbs fuel (i + 1) (runCmds b (cbLookup cbs id)) (log ++ [id])
      else (b, log)

/-- `notifyListeners`. -/
def notifyListeners (cbs : CbEnv) (b : Bus) (fuel : Nat) : Bus × List ListenerId :=
  notifyGo cbs fuel 0 b []

/-! ### JSON serialization of the Snapshot

`updateData` writes `JSON.stringify(newData)` into the Drive file and
`getData` reads it back parsed.  Serialization is modelled at the JSON
value level: objects keep the property order of the serialized object
literals, `undefined` optional properties are omitted, and parsing reads
properties by name. -/

inductive Json
  | str (s : String)
  | arr (elems : List Json)
  | obj (fields : List (String × Json))

def EventCategory.toStr : EventCategory → String
  | .work => "work"
  | .personal => "personal"
  | .important => "important"
  | .other => "other"

def EventCategory.ofStr (s : String) : Option EventCategory :=
  if s = "work" then some .work
  else if s = "personal" then some .personal
  else if s = "important" then some .important
  else if s = "other" then some .other
  else none

def ItemStatus.toStr : ItemStatus → String
  | .pending => "pending"
  | .purchased => "purchased"

def ItemStatus.ofStr (s : String) : Option ItemStatus :=
  if s = "pending" then some .pending
  else if s = "purchased" then some .purchased
  else none

def UserConfig.toJson (u : UserConfig) : Json :=
  .obj ([("username", .str u.username)] ++
    (match u.password with
     | some p => [("password", .str p)]
     | none => []))

def CalendarEvent.toJson (e : CalendarEvent) : Json :=
  .obj [("id", .str e.id), ("title", .str e.title), ("description", .str e.description),
        ("date", .str e.date), ("category", .str e.category.toStr)]

def WishlistItem.toJson (i : WishlistItem) : Json :=
  .obj [("id", .str i.id), ("listId", .str i.listId), ("name", .str i.name),
        ("url", .str i.url), ("description", .str i.description),
        ("status", .str i.status.toStr), ("dateAdded", .str i.dateAdded)]

def Snapshot.toJson (s : Snapshot) : Json :=
  .obj [("auth", s.auth.toJson),
        ("events", .arr (s.events.map CalendarEvent.toJson)),
        ("wishlist", .arr (s.wishlist.map WishlistItem.toJson)),
        ("lastUpdated", .str s.lastUpdated)]

def jfield (fields : List (String × Json)) (key : String) : Option Json :=
  (fields.find? (fun p => p.1 = key)).map (fun p => p.2)

def Json.asStr : Json → Option String
  | .str s => some s
  | _ => none

def decodeUserConfig : Json → Option UserConfig
  | .obj fs =>
      match (jfield fs "username").bind Json.asStr with
      | some u => some { username := u, password := (jfield fs "password").bind Json.asStr }
      | none => none
  | _ => none

def decodeEvent : Json → Option CalendarEvent
  | .obj fs =>
      match (jfield fs "id").bind Json.asStr, (jfield fs "title").bind Json.asStr,
            (jfield fs "description").bind Json.asStr, (jfield fs "date").bind Json.asStr,
            ((jfield fs "category").bind Json.asStr).bind EventCategory.ofStr with
      | some id, some title, some description, some date, some category =>
          some { id := id, title := title, description := description,
                 date := date, category := category }
      | _, _, _, _, _ => none
  | _ => none

def decodeItem : Json → Option WishlistItem
  | .obj fs =>
      match (jfield fs "id").bind Json.asStr, (jfield fs "listId").bind Json.asStr,
            (jfield fs "name").bind Json.asStr, (jfield fs "url").bind Json.asStr,
            (jfield fs "description").bind Json.asStr,
            ((jfield fs "status").bind Json.asStr).bind ItemStatus.ofStr,
            (jfield fs "dateAdded").bind Json.asStr with
      | some id, some listId, some name, some url, some description, some status,
        some dateAdded =>
          some { id := id, listId := listId, name := name, url := url,
                 description := description, status := status, dateAdded := dateAdded }
      | _, _, _, _, _, _, _ => none
  | _ => none

def decodeList {α : Type} (f : Json → Option α) : List Json → Option (List α)
  | [] => some []
  | j :: rest =>
      match f j, decodeList f rest with
      | some a, some as => some (a :: as)
      | _, _ => none

def decodeSnapshot : Json → Option Snapshot
  | .obj fs =>
      match jfield fs "auth", jfield fs "events", jfield fs "wishlist",
            jfield fs "lastUpdated" with
      | some ja, some (.arr jes), some (.arr jws), some (.str lu) =>
          match decodeUserConfig ja, decodeList decodeEvent jes, decodeList decodeItem jws with
          | some auth, some events, some wishlist =>
              some { auth := auth, events := events, wishlist := wishlist, lastUpdated := lu }
          | _, _, _ => none
      | _, _, _, _ => none
  | _ => none

/-- `updateData`'s serialization of the Snapshot (the persist direction). -/
def persistSnapshot (s : Snapshot) : Json :=
  Snapshot.toJson s

/-- `getData`'s parse of the persisted document (the fetch direction). -/
def fetchSnapshot (j : Json) : Option Snapshot :=
  decodeSnapshot j

/-! ### Firestore variant, from `src/unnamed/part_006`

`db` is `none` when Firebase was never configured (`isConfigured` false).
Document ids are assigned by the backend; network outcomes are oracles:
`fetchOk`/`writeOk` for calls wrapped in `try/catch`, `Except`-valued
`netRes` for calls whose rejection propagates. -/

/-- Fields stored for a wishlist document by `createWishlist`. -/
structure FsWishlistFields where
  title : String
  description : String
  createdAt : String
deriving DecidableEq

/-- Fields stored for a wishlist-item document by `createWishlistItem`. -/
structure FsItemFields where
  listId : String
  name : String
  url : String
  description : String
  status : ItemStatus
  dateAdded : String
deriving DecidableEq

structure FsState where
  authDoc : Option UserConfig
  events : List (String × EventData)
  wishlists : List (String × FsWishlistFields)
  items : List (String × FsItemFields)
deriving DecidableEq

abbrev Db := Option FsState

def eventOfDoc (p : String × EventData) : CalendarEvent :=
  { id := p.1, title := p.2.title, description := p.2.description,
    date := p.2.date, category := p.2.category }

def itemOfDoc (p : String × FsItemFields) : WishlistItem :=
  { id := p.1, listId := p.2.listId, name := p.2.name, url := p.2.url,
    description := p.2.description, status := p.2.status, dateAdded := p.2.dateAdded }

/-- `getAuthInfo` (Firestore): read the singleton `users/auth_info` doc;
absent → write the defaults and return them; any error in the `try` block
(`fetchOk = false` for `getDoc`, `writeOk = false` for the `setDoc`) is
caught and the defaults returned. -/
def fsGetAuthInfo (db : Db) (fetchOk writeOk : Bool) : UserConfig × Db :=
  match db with
  | none => (INITIAL_CREDENTIALS, none)
  | some st =>
      if !fetchOk then (INITIAL_CREDENTIALS, some st)
      else
        match st.authDoc with
        | some d => (d, some st)
        | none =>
            if !writeOk then (INITIAL_CREDENTIALS, some st)
            else (INITIAL_CREDENTIALS, some { st with authDoc := some INITIAL_CREDENTIALS })

/-- `updateAuthInfo` (Firestore): no-op when unconfigured. -/
def fsUpdateAuthInfo (db : Db) (config : UserConfig) (netRes : Except SyncErr Unit) :
    Except SyncErr Db :=
  match db with
  | none => Except.ok none
  | some st =>
      match netRes with
      | Except.error e => Except.error e
      | Except.ok _ => Except.ok (some { st with authDoc := some config })

/-- `getEvents` (Firestore): `[]` when unconfigured; errors caught → `[]`. -/
def fsGetEvents (db : Db) (fetchOk : Bool) : List CalendarEvent :=
  match db with
  | none => []
  | some st => if fetchOk then st.events.map eventOfDoc else []

/-- `createEvent` (Firestore): throws `"Database not connected"` when
unconfigured; otherwise `addDoc` (its rejection propagates) and the new
record with the store-assigned id is returned. -/
def fsCreateEvent (db : Db) (ev : EventData) (newId : String)
    (netRes : Except SyncErr Unit) : Except SyncErr (CalendarEvent × Db) :=
  match db with
  | none => Except.error "Database not connected"
  | some st =>
      match netRes with
      | Except.error e => Except.error e
      | Except.ok _ =>
          Except.ok (eventOfDoc (newId, ev), some { st with events := st.events ++ [(newId, ev)] })

/-- `updateEvent` (Firestore): no-op when unconfigured; otherwise patch the
doc's fields. -/
def fsUpdateEvent (db : Db) (ev : CalendarEvent) (netRes : Except SyncErr Unit) :
    Except SyncErr Db :=
  match db with
  | none => Except.ok none
  | some st =>
      match netRes with
      | Except.error e => Except.error e
      | Except.ok _ =>
          Except.ok (some { st with events := st.events.map (fun p =>
            if p.1 = ev.id then
              (p.1, { title := ev.title, description := ev.description,
                      date := ev.date, category := ev.category })
            else p) })

/-- `deleteEvent` (Firestore): no-op when unconfigured. -/
def fsDeleteEvent (db : Db) (id : String) (netRes : Except SyncErr Unit) :
    Except SyncErr Db :=
  match db with
  | none => Except.ok none
  | some st =>
      match netRes with
      | Except.error e => Except.error e
      | Except.ok _ => Except.ok (some { st with events := st.events.filter (fun p => p.1 ≠ id) })

/-- `getWishlists` (Firestore). -/
def fsGetWishlists (db : Db) (fetchOk : Bool) : List Wishlist :=
  match db with
  | none => []
  | some st =>
      if fetchOk then
        st.wishlists.map (fun p =>
          { id := p.1, title := p.2.title, description := some p.2.description,
            createdAt := p.2.createdAt })
      else []

/-- `createWishlist` (Firestore): throws when unconfigured. -/
def fsCreateWishlist (db : Db) (title description createdAt newId : String)
    (netRes : Except SyncErr Unit) : Except SyncErr (Wishlist × Db) :=
  match db with
  | none => Except.error "Database not connected"
  | some st =>
      match netRes with
      | Except.error e => Except.error e
      | Except.ok _ =>
          let fields : FsWishlistFields :=
            { title := title, description := description, createdAt := createdAt }
          Except.ok ({ id := newId, title := title, description := some description,
                       createdAt := createdAt },
            some { st with wishlists := st.wishlists ++ [(newId, fields)] })

/-- `deleteWishlist` (Firestore): no-op when unconfigured. -/
def fsDeleteWishlist (db : Db) (id : String) (netRes : Except SyncErr Unit) :
    Except SyncErr Db :=
  match db with
  | none => Except.ok none
  | some st =>
      match netRes with
      | Except.error e => Except.error e
      | Except.ok _ =>
          Except.ok (some { st with wishlists := st.wishlists.filter (fun p => p.1 ≠ id) })

/-- `getWishlistItems` (Firestore): query scoped by `listId`. -/
def fsGetWishlistItems (db : Db) (listId : String) (fetchOk : Bool) : List WishlistItem :=
  match db with
  | none => []
  | some st =>
      if fetchOk then (st.items.filter (fun p => p.2.listId = listId)).map itemOfDoc
      else []

/-- `createWishlistItem` (Firestore): throws when unconfigured. -/
def fsCreateWishlistItem (db : Db) (item : WishlistItemData) (dateAdded newId : String)
    (netRes : Except SyncErr Unit) : Except SyncErr (WishlistItem × Db) :=
  match db with
  | none => Except.error "Database not connected"
  | some st =>
      match netRes with
      | Except.error e => Except.error e
      | Except.ok _ =>
          let fields : FsItemFields :=
            { listId := item.listId, name := item.name, url := item.url,
              description := item.description, status := item.status, dateAdded := dateAdded }
          Except.ok (itemOfDoc (newId, fields), some { st with items := st.items ++ [(newId, fields)] })

/-- `updateWishlistItem` (Firestore): no-op when unconfigured. -/
def fsUpdateWishlistItem (db : Db) (item : WishlistItem) (netRes : Except SyncErr Unit) :
    Except SyncErr Db :=
  match db with
  | none => Except.ok none
  | some st =>
      match netRes with
      | Except.error e => Except.error e
      | Except.ok _ =>
          Except.ok (some { st with items := st.items.map (fun p =>
            if p.1 = item.id then
              (p.1, { listId := item.listId, name := item.name, url := item.url,
                      description := item.description, status := item.status,
                      dateAdded := item.dateAdded })
            else p) })

/-- `deleteWishlistItem` (Firestore): no-op when unconfigured. -/
def fsDeleteWishlistItem (db : Db) (id : String) (netRes : Except SyncErr Unit) :
    Except SyncErr Db :=
  match db with
  | none => Except.ok none
  | some st =>
      match netRes with
      | Except.error e => Except.error e
      | Except.ok _ => Except.ok (some { st with items := st.items.filter (fun p => p.1 ≠ id) })

/-! ## Supporting lemmas -/

lemma getEvents_applyOp (s : LocalStore) (op : StoreOp) :
    getEvents (applyOp s op) = eventTableStep (getEvents s) op := by
  cases op with
  | createEv ev newId => rfl
  | updateEv ev =>
      show getEvents (updateEventLocal s ev) = _
      cases h : findIndex (fun e => e.id = ev.id) (getEvents s) with
      | none => simp only [updateEventLocal, eventTableStep, h]
      | some i =>
          simp only [updateEventLocal, eventTableStep, h]
          simp [getEvents]
  | deleteEv id => rfl
  | createWi item newId dateAdded => rfl
  | updateWi item =>
      show getEvents (updateWishlistItemLocal s item) = _
      cases h : findIndex (fun i => i.id = item.id) (getWishlist s) with
      | none => simp only [updateWishlistItemLocal, eventTableStep, h]
      | some i =>
          simp only [updateWishlistItemLocal, eventTableStep, h]
          simp [getEvents]
  | deleteWi id => rfl

lemma getWishlist_applyOp (s : LocalStore) (op : StoreOp) :
    getWishlist (applyOp s op) = wishTableStep (getWishlist s) op := by
  cases op with
  | createEv ev newId => rfl
  | updateEv ev =>
      show getWishlist (updateEventLocal s ev) = _
      cases h : findIndex (fun e => e.id = ev.id) (getEvents s) with
      | none => simp only [updateEventLocal, wishTableStep, h]
      | some i =>
          simp only [updateEventLocal, wishTableStep, h]
          simp [getWishlist]
  | deleteEv id => rfl
  | createWi item newId dateAdded => rfl
  | updateWi item =>
      show getWishlist (updateWishlistItemLocal s item) = _
      cases h : findIndex (fun i => i.id = item.id) (getWishlist s) with
      | none => simp only [updateWishlistItemLocal, wishTableStep, h]
      | some i =>
          simp only [updateWishlistItemLocal, wishTableStep, h]
          simp [getWishlist]
  | deleteWi id => rfl

lemma getEvents_runOps (ops : List StoreOp) :
    ∀ s : LocalStore, getEvents (runOps s ops) = ops.foldl eventTableStep (getEvents s) := by
  induction ops with
  | nil => intro s; rfl
  | cons op rest ih =>
      intro s
      show getEvents (runOps (applyOp s op) rest) = _
      rw [ih (applyOp s op), getEvents_applyOp]
      rfl

lemma getWishlist_runOps (ops : List StoreOp) :
    ∀ s : LocalStore, getWishlist (runOps s ops) = ops.foldl wishTableStep (getWishlist s) := by
  induction ops with
  | nil => intro s; rfl
  | cons op rest ih =>
      intro s
      show getWishlist (runOps (applyOp s op) rest) = _
      rw [ih (applyOp s op), getWishlist_applyOp]
      rfl

lemma map_id_set {α : Type} (idf : α → String) :
    ∀ (t : List α) (a : α) (i : Nat),
      findIndex (fun x => idf x = idf a) t = some i →
      (t.set i a).map idf = t.map idf := by
  intro t
  induction t with
  | nil => intro a i h; simp [findIndex] at h
  | cons x rest ih =>
      intro a i h
      by_cases hx : idf x = idf a
      · simp [findIndex, hx] at h
        subst h
        simp [hx]
      · simp [findIndex, hx] at h
        obtain ⟨j, hj, rfl⟩ := h
        simp [ih a j hj]

lemma eventIds_updateEventLocal (s : LocalStore) (ev : CalendarEvent) :
    eventIds (updateEventLocal s ev) = eventIds s := by
  cases h : findIndex (fun e => e.id = ev.id) (getEvents s) with
  | none => simp only [updateEventLocal, h]
  | some i =>
      simp only [updateEventLocal, h]
      exact map_id_set (fun e => e.id) (getEvents s) ev i h

lemma wishIds_updateEventLocal (s : LocalStore) (ev : CalendarEvent) :
    wishIds (updateEventLocal s ev) = wishIds s := by
  cases h : findIndex (fun e => e.id = ev.id) (getEvents s) with
  | none => simp only [updateEventLocal, h]
  | some i => simp only [updateEventLocal, h]; rfl

lemma wishIds_updateWishlistItemLocal (s : LocalStore) (item : WishlistItem) :
    wishIds (updateWishlistItemLocal s item) = wishIds s := by
  cases h : findIndex (fun i => i.id = item.id) (getWishlist s) with
  | none => simp only [updateWishlistItemLocal, h]
  | some i =>
      simp only [updateWishlistItemLocal, h]
      exact map_id_set (fun i => i.id) (getWishlist s) item i h

lemma eventIds_updateWishlistItemLocal (s : LocalStore) (item : WishlistItem) :
    eventIds (updateWishlistItemLocal s item) = eventIds s := by
  cases h : findIndex (fun i => i.id = item.id) (getWishlist s) with
  | none => simp only [updateWishlistItemLocal, h]
  | some i => simp only [updateWishlistItemLocal, h]; rfl

lemma nodup_ids_applyOp (s : LocalStore) (op : StoreOp)
    (he : (eventIds s).Nodup) (hw : (wishIds s).Nodup)
    (hok : freshOk s op = true) :
    (eventIds (applyOp s op)).Nodup ∧ (wishIds (applyOp s op)).Nodup := by
  cases op with
  | createEv ev newId =>
      simp only [freshOk, Bool.not_eq_true', decide_eq_false_iff_not] at hok
      refine ⟨?_, hw⟩
      have heq : eventIds (applyOp s (.createEv ev newId)) = eventIds s ++ [newId] := by
        simp [applyOp, createEventLocal, eventIds, getEvents]
      rw [heq]
      simp only [List.nodup_append, List.nodup_cons, List.nodup_nil]
      exact ⟨he, by simp, by simpa using hok⟩
  | updateEv ev =>
      refine ⟨?_, ?_⟩
      · show (eventIds (updateEventLocal s ev)).Nodup
        rw [eventIds_updateEventLocal]; exact he
      · show (wishIds (updateEventLocal s ev)).Nodup
        rw [wishIds_updateEventLocal]; exact hw
  | deleteEv id =>
      refine ⟨?_, hw⟩
      have hsub : List.Sublist (eventIds (applyOp s (.deleteEv id))) (eventIds s) := by
        simp only [applyOp, deleteEventLocal, eventIds, getEvents, Option.getD_some]
        exact (List.filter_sublist _).map _
      exact hsub.nodup he
  | createWi item newId dateAdded =>
      simp only [freshOk, Bool.not_eq_true', decide_eq_false_iff_not] at hok
      refine ⟨he, ?_⟩
      have heq : wishIds (applyOp s (.createWi item newId dateAdded)) = wishIds s ++ [newId] := by
        simp [applyOp, createWishlistItemLocal, wishIds, getWishlist]
      rw [heq]
      simp only [List.nodup_append, List.nodup_cons, List.nodup_nil]
      exact ⟨hw, by simp, by simpa using hok⟩
  | updateWi item =>
      refine ⟨?_, ?_⟩
      · show (eventIds (updateWishlistItemLocal s item)).Nodup
        rw [eventIds_updateWishlistItemLocal]; exact he
      · show (wishIds (updateWishlistItemLocal s item)).Nodup
        rw [wishIds_updateWishlistItemLocal]; exact hw
  | deleteWi id =>
      refine ⟨he, ?_⟩
      have hsub : List.Sublist (wishIds (applyOp s (.deleteWi id))) (wishIds s) := by
        simp only [applyOp, deleteWishlistItemLocal, wishIds, getWishlist, Option.getD_some]
        exact (List.filter_sublist _).map _
      exact hsub.nodup hw

/-- C1: applying a sequence of operations to the Local Store yields, on each
table, exactly the in-order replay of that sequence against the empty
table. -/
theorem C1_run_eq_replay (ops : List StoreOp) :
    getEvents (runOps emptyStore ops) = replayEvents ops ∧
    getWishlist (runOps emptyStore ops) = replayWishlist ops := by
  refine ⟨?_, ?_⟩
  · rw [getEvents_runOps]; rfl
  · rw [getWishlist_runOps]; rfl

/-- C2 counterexample: the Local Store performs no uniqueness check at write
time — two creates whose generated ids coincide yield two records with the
same id in the events table, so the claim as stated is false. -/
theorem C2_no_uniqueness_check :
    ¬ (eventIds (runOps emptyStore
        [StoreOp.createEv { title := "t", description := "d", date := "2024-06-10",
                            category := EventCategory.work } "a",
         StoreOp.createEv { title := "t", description := "d", date := "2024-06-10",
                            category := EventCategory.work } "a"])).Nodup := by
  decide

/-- C2 (amended): per-table id uniqueness is an invariant of every run only
under the assumption that the id generator never returns an id already
present in the target table; the store itself appends creates unchecked. -/
theorem C2_unique_ids_of_fresh (ops : List StoreOp) :
    ∀ s : LocalStore, freshCreates s ops = true →
      (eventIds s).Nodup → (wishIds s).Nodup →
      (eventIds (runOps s ops)).Nodup ∧ (wishIds (runOps s ops)).Nodup := by
  induction ops with
  | nil => intro s _ he hw; exact ⟨he, hw⟩
  | cons op rest ih =>
      intro s hfresh he hw
      simp only [freshCreates, Bool.and_eq_true] at hfresh
      have hstep := nodup_ids_applyOp s op he hw hfresh.1
      exact ih (applyOp s op) hfresh.2 hstep.1 hstep.2

theorem C2_unique_ids_of_fresh_witness :
    (eventIds (runOps emptyStore
        [StoreOp.createEv { title := "t", description := "d", date := "2024-06-10",
                            category := EventCategory.work } "a",
         StoreOp.createEv { title := "u", description := "e", date := "2024-06-11",
                            category := EventCategory.personal } "b"])).Nodup ∧
    (wishIds (runOps emptyStore
        [StoreOp.createEv { title := "t", description := "d", date := "2024-06-10",
                            category := EventCategory.work } "a",
         StoreOp.createEv { title := "u", description := "e", date := "2024-06-11",
                            category := EventCategory.personal } "b"])).Nodup :=
  C2_unique_ids_of_fresh _ emptyStore (by decide) (by decide) (by decide)

/-! ## C3: pull failure behaviour -/

/-- A connected sync configuration with no file handle yet (the state before
the first successful pull). -/
def c3Config : DriveConfig :=
  { clientId := "c", apiKey := "k", connected := true, fileId := none }

def c3Store : LocalStore :=
  { emptyStore with driveConfig := some c3Config }

def c3Env : Env := { clientId := "", apiKey := "" }

/-- C3 counterexample: when the fetch of the remote snapshot fails, the error
is propagated but the Local Store is NOT left unchanged — `setDriveConfig`
has already persisted the discovered file handle into the sync-config record
before the fetch runs. -/
theorem C3_pull_failure_mutates_config :
    (syncFromDrive c3Env c3Store "now" (fun _ => Except.ok "f1")
        (fun _ => Except.error "network")).1 = Except.error "network" ∧
    (syncFromDrive c3Env c3Store "now" (fun _ => Except.ok "f1")
        (fun _ => Except.error "network")).2 ≠ c3Store := by
  refine ⟨rfl, ?_⟩
  decide

/-- C3 (amended): a pull failure is propagated to the caller and leaves the
three data tables (auth, events, wishlist) untouched — no partial subset of
them is ever written — but the sync-config record may already have been
updated with the discovered file handle before the fetch. -/
theorem C3_pull_failure_propagates_data_intact (env : Env) (s : LocalStore) (now : String)
    (fI : Snapshot → Except SyncErr String) (gD : String → Except SyncErr Snapshot) :
    (∀ e, (syncFromDrive env s now fI gD).1 = Except.error e →
        (syncFromDrive env s now fI gD).2.auth = s.auth ∧
        (syncFromDrive env s now fI gD).2.events = s.events ∧
        (syncFromDrive env s now fI gD).2.wishlist = s.wishlist) ∧
    (∀ fid e, (getDriveConfig env s).connected = true →
        fI (getFullDatabase s now) = Except.ok fid →
        gD fid = Except.error e →
        (syncFromDrive env s now fI gD).1 = Except.error e) := by
  constructor
  · intro e herr
    unfold syncFromDrive at herr ⊢
    by_cases hc : (getDriveConfig env s).connected
    · simp only [hc, Bool.not_true, Bool.false_eq_true, if_false] at herr ⊢
      cases hfI : fI (getFullDatabase s now) with
      | error e2 => simp [hfI]
      | ok fid =>
          simp only [hfI] at herr ⊢
          cases hgD : gD fid with
          | error e2 => simp [hgD, setDriveConfig]
          | ok data => simp [hgD] at herr
    · simp only [eq_self_iff_true, hc] at herr ⊢
      simp at hc
      simp [hc] at herr
  · intro fid e hc hfI hgD
    unfold syncFromDrive
    simp [hc, hfI, hgD]

theorem C3_pull_failure_propagates_data_intact_witness :
    (syncFromDrive c3Env c3Store "now" (fun _ => Except.ok "f1")
        (fun _ => Except.error "network")).1 = Except.error "network" ∧
    (syncFromDrive c3Env c3Store "now" (fun _ => Except.ok "f1")
        (fun _ => Except.error "network")).2.events = c3Store.events :=
  ⟨(C3_pull_failure_propagates_data_intact c3Env c3Store "now" _ _).2 "f1" "network"
      rfl rfl rfl,
   ((C3_pull_failure_propagates_data_intact c3Env c3Store "now" _ _).1 "network"
      ((C3_pull_failure_propagates_data_intact c3Env c3Store "now" _ _).2 "f1" "network"
        rfl rfl rfl)).2.1⟩

/-! ## C7: push failures are absorbed -/

/-- `createEvent` with its push, returning what the caller observes: the
mutated store and the new record; an exception would appear as `error`. -/
def createEventFull (env : Env) (s : LocalStore) (ev : EventData) (newId : String)
    (hasToken : Bool) (now : String) (pushRes : Snapshot → Except SyncErr Unit) :
    Except SyncErr (LocalStore × CalendarEvent) :=
  let r := createEventLocal s ev newId
  match syncToDrive env r.1 hasToken now pushRes with
  | Except.ok _ => Except.ok r
  | Except.error e => Except.error e

/-- `createWishlistItem` with its push. -/
def createWishlistItemFull (env : Env) (s : LocalStore) (item : WishlistItemData)
    (newId dateAdded : String) (hasToken : Bool) (now : String)
    (pushRes : Snapshot → Except SyncErr Unit) :
    Except SyncErr (LocalStore × WishlistItem) :=
  let r := createWishlistItemLocal s item newId dateAdded
  match syncToDrive env r.1 hasToken now pushRes with
  | Except.ok _ => Except.ok r
  | Except.error e => Except.error e

lemma syncToDrive_never_throws (env : Env) (s : LocalStore) (hasToken : Bool)
    (now : String) (pushRes : Snapshot → Except SyncErr Unit) :
    syncToDrive env s hasToken now pushRes = Except.ok () := by
  unfold syncToDrive
  cases h : pushRes (getFullDatabase s now) <;> simp [h]

/-- C7: a push failure never propagates to the triggering mutation's caller
and never alters its result — for every operation and every push outcome,
the caller receives the ordinary success value of the pure local mutation,
and the mutated Local Store state is exactly the local one (no rollback). -/
theorem C7_push_failure_absorbed (env : Env) (s : LocalStore) (op : StoreOp)
    (hasToken : Bool) (now : String) (pushRes : Snapshot → Except SyncErr Unit)
    (ev : EventData) (newId : String) (item : WishlistItemData) (wiId dateAdded : String) :
    mutateWithPush env s op hasToken now pushRes = Except.ok (applyOp s op) ∧
    createEventFull env s ev newId hasToken now pushRes =
      Except.ok (createEventLocal s ev newId) ∧
    createWishlistItemFull env s item wiId dateAdded hasToken now pushRes =
      Except.ok (createWishlistItemLocal s item wiId dateAdded) := by
  refine ⟨?_, ?_, ?_⟩
  · simp only [mutateWithPush, syncToDrive_never_throws]
    split <;> rfl
  · simp only [createEventFull, syncToDrive_never_throws]
  · simp only [createWishlistItemFull, syncToDrive_never_throws]

/-! ## C6: the spec's put contract against updateEvent / updateWishlistItem -/

/-- Modelled from the spec: `put(table, Record)` — insert if id absent, else
full replace. -/
def specPutEvents (t : List CalendarEvent) (ev : CalendarEvent) : List CalendarEvent :=
  match findIndex (fun e => e.id = ev.id) t with
  | some index => t.set index ev
  | none => t ++ [ev]

/-- Modelled from the spec: `put` for the wishlist table. -/
def specPutWish (t : List WishlistItem) (item : WishlistItem) : List WishlistItem :=
  match findIndex (fun i => i.id = item.id) t with
  | some index => t.set index item
  | none => t ++ [item]

def c6Event : CalendarEvent :=
  { id := "e1", title := "Standup", description := "", date := "2024-06-10",
    category := EventCategory.work }

/-- C6 counterexample: when no record with the given id is present,
`updateEvent` does not insert the record — it leaves the store untouched —
so it is not the spec's insert-or-replace `put`. -/
theorem C6_update_absent_no_insert :
    updateEventLocal emptyStore c6Event = emptyStore ∧
    getEvents (updateEventLocal emptyStore c6Event) ≠
      specPutEvents (getEvents emptyStore) c6Event := by
  decide

lemma findIndex_isSome {α : Type} (p : α → Bool) :
    ∀ t : List α, (findIndex p t).isSome = t.any p := by
  intro t
  induction t with
  | nil => rfl
  | cons x rest ih =>
      by_cases hx : p x = true
      · simp [findIndex, hx]
      · simp only [Bool.not_eq_true] at hx
        cases h : findIndex p rest with
        | none => simp [findIndex, hx, h] at ih ⊢; exact ih
        | some j => simp [findIndex, hx, h] at ih ⊢; exact ih

/-- C6 (amended): `updateEvent` / `updateWishlistItem` fully replace the
first record carrying the given id when one is present (agreeing with the
spec's put in that case, and the write is persisted), but when the id is
absent they are a complete no-op: nothing is inserted and nothing is
written. -/
theorem C6_update_replaces_present_noop_absent (s : LocalStore) (ev : CalendarEvent)
    (item : WishlistItem) :
    ((getEvents s).any (fun e => e.id = ev.id) = true →
        getEvents (updateEventLocal s ev) = specPutEvents (getEvents s) ev) ∧
    ((getEvents s).any (fun e => e.id = ev.id) = false →
        updateEventLocal s ev = s) ∧
    ((getWishlist s).any (fun i => i.id = item.id) = true →
        getWishlist (updateWishlistItemLocal s item) = specPutWish (getWishlist s) item) ∧
    ((getWishlist s).any (fun i => i.id = item.id) = false →
        updateWishlistItemLocal s item = s) := by
  refine ⟨?_, ?_, ?_, ?_⟩
  · intro hany
    cases h : findIndex (fun e => e.id = ev.id) (getEvents s) with
    | none =>
        rw [← findIndex_isSome (fun e => e.id = ev.id) (getEvents s), h] at hany
        simp at hany
    | some i =>
        simp only [updateEventLocal, specPutEvents, h]
        rfl
  · intro hany
    have h : findIndex (fun e => e.id = ev.id) (getEvents s) = none := by
      have := findIndex_isSome (fun e => e.id = ev.id) (getEvents s)
      rw [hany] at this
      exact Option.not_isSome_iff_eq_none.mp (by simp [this])
    simp only [updateEventLocal, h]
  · intro hany
    cases h : findIndex (fun i => i.id = item.id) (getWishlist s) with
    | none =>
        rw [← findIndex_isSome (fun i => i.id = item.id) (getWishlist s), h] at hany
        simp at hany
    | some i =>
        simp only [updateWishlistItemLocal, specPutWish, h]
        rfl
  · intro hany
    have h : findIndex (fun i => i.id = item.id) (getWishlist s) = none := by
      have := findIndex_isSome (fun i => i.id = item.id) (getWishlist s)
      rw [hany] at this
      exact Option.not_isSome_iff_eq_none.mp (by simp [this])
    simp only [updateWishlistItemLocal, h]

def c6Store : LocalStore := { emptyStore with events := some [c6Event] }

def c6Event2 : CalendarEvent :=
  { id := "e1", title := "Standup moved", description := "", date := "2024-06-11",
    category := EventCategory.work }

def c6Item : WishlistItem :=
  { id := "w1", listId := "l1", name := "n", url := "u", description := "",
    status := ItemStatus.pending, dateAdded := "2024-06-10T00:00:00.000Z" }

theorem C6_update_replaces_present_noop_absent_witness :
    getEvents (updateEventLocal c6Store c6Event2) =
      specPutEvents (getEvents c6Store) c6Event2 ∧
    updateWishlistItemLocal c6Store c6Item = c6Store :=
  ⟨(C6_update_replaces_present_noop_absent c6Store c6Event2 c6Item).1 (by decide),
   (C6_update_replaces_present_noop_absent c6Store c6Event2 c6Item).2.2.2 (by decide)⟩

/-! ## C5: notify iterates the live set, not a stable copy -/

def c5Cbs : CbEnv := [(0, [BusCmd.unsub 1])]

def c5Bus : Bus := { entries := [some 0, some 1] }

/-- C5 counterexample: observer 1 is registered when the notification
begins, but observer 0's callback unsubscribes it re-entrantly before it is
visited, so it is not invoked at all — `forEach` walks the live set, not a
stable copy taken at the start. -/
theorem C5_reentrant_unsub_skips_observer :
    c5Bus.active 1 = true ∧
    ¬ ((notifyListeners c5Cbs c5Bus 10).2.count 1 = 1) := by
  decide

lemma cbLookup_eq_nil (cbs : CbEnv) (h : ∀ p ∈ cbs, p.2 = ([] : List BusCmd))
    (id : ListenerId) : cbLookup cbs id = [] := by
  unfold cbLookup
  cases hf : cbs.find? (fun p => p.1 = id) with
  | none => rfl
  | some p => exact h p (List.mem_of_find?_eq_some hf)

lemma entries_drop_cons {l : List (Option ListenerId)} {i : Nat} (hi : i < l.length) :
    l.drop i = l.getD i none :: l.drop (i + 1) := by
  rw [List.drop_eq_getElem_cons hi]
  congr 1
  simp [List.getD_eq_getElem?_getD, List.getElem?_eq_getElem hi]

lemma notifyGo_no_cmds (cbs : CbEnv) (h : ∀ p ∈ cbs, p.2 = ([] : List BusCmd)) :
    ∀ (fuel i : Nat) (b : Bus) (log : List ListenerId),
      b.entries.length - i ≤ fuel →
      notifyGo cbs fuel i b log = (b, log ++ (b.entries.drop i).reduceOption) := by
  intro fuel
  induction fuel with
  | zero =>
      intro i b log hle
      have hlen : b.entries.length ≤ i := by omega
      rw [List.drop_eq_nil_of_le hlen]
      simp [notifyGo]
  | succ fuel ih =>
      intro i b log hle
      unfold notifyGo
      by_cases hi : i < b.entries.length
      · simp only [hi, if_true]
        cases hv : b.entries.getD i none with
        | none =>
            show notifyGo cbs fuel (i + 1) b log = _
            rw [ih (i + 1) b log (by omega)]
            rw [entries_drop_cons hi, hv, List.reduceOption_cons_of_none]
        | some id =>
            show notifyGo cbs fuel (i + 1) (runCmds b (cbLookup cbs id)) (log ++ [id]) = _
            rw [cbLookup_eq_nil cbs h id]
            show notifyGo cbs fuel (i + 1) b (log ++ [id]) = _
            rw [ih (i + 1) b (log ++ [id]) (by omega)]
            rw [entries_drop_cons hi, hv, List.reduceOption_cons_of_some,
              List.append_assoc]
            rfl
      · simp only [hi, if_false]
        have hlen : b.entries.length ≤ i := by omega
        rw [List.drop_eq_nil_of_le hlen]
        simp

/-- C5 (amended): calling unsubscribe during a notification is safe (the
walk is total, no error), but `notify` iterates the live observer set, not a
stable copy: an observer unsubscribed re-entrantly before its turn is
skipped; when no callback modifies the set re-entrantly, every observer
registered at the start is invoked exactly once, in registration order. -/
theorem C5_notify_stable_without_reentry (cbs : CbEnv) (b : Bus) (fuel : Nat)
    (hcbs : ∀ p ∈ cbs, p.2 = ([] : List BusCmd))
    (hfuel : b.entries.length ≤ fuel) :
    notifyListeners cbs b fuel = (b, b.entries.reduceOption) := by
  unfold notifyListeners
  rw [notifyGo_no_cmds cbs hcbs fuel 0 b [] (by omega)]
  simp

theorem C5_notify_stable_without_reentry_witness :
    notifyListeners [] { entries := [some 3, none, some 5] } 3 =
      ({ entries := [some 3, none, some 5] }, [3, 5]) := by
  have h := C5_notify_stable_without_reentry [] { entries := [some 3, none, some 5] } 3
    (by simp) (by decide)
  simpa using h

/-! ## C9: subscribe then double unsubscribe -/

lemma count_eraseFirstEntry (id : ListenerId) :
    ∀ l : List (Option ListenerId),
      (eraseFirstEntry l id).count (some id) = l.count (some id) - 1 := by
  intro l
  induction l with
  | nil => rfl
  | cons e rest ih =>
      by_cases he : e = some id
      · simp [eraseFirstEntry, he, List.count_cons]
      · simp [eraseFirstEntry, he, List.count_cons, ih]

lemma count_after_subscribe (b : Bus) (id : ListenerId)
    (h : b.entries.count (some id) ≤ 1) :
    (subscribe b id).entries.count (some id) = 1 := by
  by_cases hm : (some id) ∈ b.entries
  · have hact : b.active id = true := by simp [Bus.active, hm]
    have hsub : subscribe b id = b := by unfold subscribe; rw [hact]; simp
    have h1 : 0 < b.entries.count (some id) := List.count_pos_iff.mpr hm
    rw [hsub]
    omega
  · have hact : b.active id = false := by simp [Bus.active, hm]
    have hsub : subscribe b id = { entries := b.entries ++ [some id] } := by
      unfold subscribe; rw [hact]; simp
    rw [hsub]
    simp [List.count_append, List.count_eq_zero.mpr hm]

lemma mem_eraseFirstEntry {x : Option ListenerId} {id : ListenerId} :
    ∀ {l : List (Option ListenerId)}, x ∈ eraseFirstEntry l id → x ∈ l ∨ x = none := by
  intro l
  induction l with
  | nil => intro h; simp [eraseFirstEntry] at h
  | cons e rest ih =>
      intro h
      by_cases he : e = some id
      · simp only [eraseFirstEntry, he, if_true] at h
        rcases List.mem_cons.mp h with h | h
        · right; exact h
        · left; exact List.mem_cons_of_mem _ h
      · simp only [eraseFirstEntry, he, if_false] at h
        rcases List.mem_cons.mp h with h | h
        · left; exact h ▸ List.mem_cons_self _ _
        · rcases ih h with h2 | h2
          · left; exact List.mem_cons_of_mem _ h2
          · right; exact h2

lemma runCmds_not_mem (id : ListenerId) :
    ∀ (cmds : List BusCmd) (b : Bus), BusCmd.sub id ∉ cmds →
      (some id) ∉ b.entries → (some id) ∉ (runCmds b cmds).entries := by
  intro cmds
  induction cmds with
  | nil => intro b _ hb; exact hb
  | cons c rest ih =>
      intro b hc hb
      cases c with
      | sub j =>
          have hji : j ≠ id := fun he => hc (by simp [he])
          refine ih (subscribe b j) (fun hm => hc (List.mem_cons_of_mem _ hm)) ?_
          unfold subscribe
          split
          · exact hb
          · intro hm
            rcases List.mem_append.mp hm with h | h
            · exact hb h
            · simp at h
              exact hji h.symm
      | unsub j =>
          refine ih (unsubscribe b j) (fun hm => hc (List.mem_cons_of_mem _ hm)) ?_
          intro hm
          rcases mem_eraseFirstEntry hm with h | h
          · exact hb h
          · cases h

lemma notifyGo_not_mem (cbs : CbEnv) (id : ListenerId)
    (hcbs : ∀ p ∈ cbs, BusCmd.sub id ∉ p.2) :
    ∀ (fuel i : Nat) (b : Bus) (log : List ListenerId),
      (some id) ∉ b.entries → id ∉ log → id ∉ (notifyGo cbs fuel i b log).2 := by
  intro fuel
  induction fuel with
  | zero => intro i b log _ hlog; exact hlog
  | succ fuel ih =>
      intro i b log hb hlog
      unfold notifyGo
      by_cases hi : i < b.entries.length
      · simp only [hi, if_true]
        cases hv : b.entries.getD i none with
        | none => exact ih (i + 1) b log hb hlog
        | some j =>
            have hj : some j ∈ b.entries := by
              rw [← hv, List.getD_eq_getElem?_getD, List.getElem?_eq_getElem hi]
              exact List.getElem_mem hi
            have hji : j ≠ id := fun he => hb (he ▸ hj)
            refine ih (i + 1) (runCmds b (cbLookup cbs j)) (log ++ [j]) ?_ ?_
            · refine runCmds_not_mem id (cbLookup cbs j) b ?_ hb
              unfold cbLookup
              cases hf : cbs.find? (fun p => p.1 = j) with
              | none => simp
              | some p => exact hcbs p (List.mem_of_find?_eq_some hf)
            · intro hm
              rcases List.mem_append.mp hm with h | h
              · exact hlog h
              · simp at h
                exact hji h.symm
      · simp only [hi, if_false]
        exact hlog

/-- C9: subscribing an observer and then calling the returned unsubscribe
twice is harmless (both calls are total, the second a no-op) and leaves the
observer unregistered, so a subsequent notification whose callbacks do not
re-subscribe it never invokes it. -/
theorem C9_double_unsubscribe (b : Bus) (id : ListenerId) (cbs : CbEnv) (fuel : Nat)
    (hcount : b.entries.count (some id) ≤ 1)
    (hcbs : ∀ p ∈ cbs, BusCmd.sub id ∉ p.2) :
    (unsubscribe (unsubscribe (subscribe b id) id) id).active id = false ∧
    id ∉ (notifyListeners cbs (unsubscribe (unsubscribe (subscribe b id) id) id) fuel).2 := by
  have h1 := count_after_subscribe b id hcount
  have h2 : (unsubscribe (subscribe b id) id).entries.count (some id) = 0 := by
    show (eraseFirstEntry (subscribe b id).entries id).count (some id) = 0
    rw [count_eraseFirstEntry, h1]
  have h3 : (unsubscribe (unsubscribe (subscribe b id) id) id).entries.count (some id) = 0 := by
    show (eraseFirstEntry (unsubscribe (subscribe b id) id).entries id).count (some id) = 0
    rw [count_eraseFirstEntry, h2]
  have hmem : (some id) ∉ (unsubscribe (unsubscribe (subscribe b id) id) id).entries :=
    List.count_eq_zero.mp h3
  refine ⟨?_, ?_⟩
  · simp [Bus.active, hmem]
  · exact notifyGo_not_mem cbs id hcbs fuel 0 _ [] hmem (by simp)

theorem C9_double_unsubscribe_witness :
    (unsubscribe (unsubscribe (subscribe { entries := [] } 7) 7) 7).active 7 = false ∧
    7 ∉ (notifyListeners [] (unsubscribe (unsubscribe (subscribe { entries := [] } 7) 7) 7) 5).2 :=
  C9_double_unsubscribe { entries := [] } 7 [] 5 (by decide) (by simp)

/-! ## C4: unconfigured document-store behaviour -/

def c4Ev : EventData :=
  { title := "t", description := "", date := "2024-06-10", category := EventCategory.work }

def c4Item : WishlistItemData :=
  { listId := "l", name := "n", url := "", description := "", status := ItemStatus.pending }

/-- C4 counterexample: with the backend never configured, the three create
operations are not no-ops — each throws "Database not connected" — so the
claim that no operation throws is false. -/
theorem C4_unconfigured_creates_throw :
    fsCreateEvent none c4Ev "id1" (Except.ok ()) = Except.error "Database not connected" ∧
    fsCreateWishlist none "t" "d" "now" "id2" (Except.ok ()) =
      Except.error "Database not connected" ∧
    fsCreateWishlistItem none c4Item "now" "id3" (Except.ok ()) =
      Except.error "Database not connected" :=
  ⟨rfl, rfl, rfl⟩

/-- C4 (amended): when the backend was never configured, every read returns
the empty sequence or the default credentials and every update/delete write
is a no-op success — but the three create operations throw
"Database not connected" instead of being no-ops. -/
theorem C4_unconfigured_fails_fast (fetchOk writeOk : Bool) (listId : String)
    (cfg : UserConfig) (cev : CalendarEvent) (wit : WishlistItem)
    (ev : EventData) (item : WishlistItemData) (anId t d ca nid : String)
    (netRes : Except SyncErr Unit) :
    fsGetAuthInfo none fetchOk writeOk = (INITIAL_CREDENTIALS, none) ∧
    fsGetEvents none fetchOk = [] ∧
    fsGetWishlists none fetchOk = [] ∧
    fsGetWishlistItems none listId fetchOk = [] ∧
    fsUpdateAuthInfo none cfg netRes = Except.ok none ∧
    fsUpdateEvent none cev netRes = Except.ok none ∧
    fsDeleteEvent none anId netRes = Except.ok none ∧
    fsDeleteWishlist none anId netRes = Except.ok none ∧
    fsUpdateWishlistItem none wit netRes = Except.ok none ∧
    fsDeleteWishlistItem none anId netRes = Except.ok none ∧
    fsCreateEvent none ev nid netRes = Except.error "Database not connected" ∧
    fsCreateWishlist none t d ca nid netRes = Except.error "Database not connected" ∧
    fsCreateWishlistItem none item ca nid netRes = Except.error "Database not connected" :=
  ⟨rfl, rfl, rfl, rfl, rfl, rfl, rfl, rfl, rfl, rfl, rfl, rfl, rfl⟩

/-! ## C10: getAuthInfo is a read with a write side effect -/

/-- C10: on a configured backend, `getAuthInfo` returns the stored singleton
when it exists; when it is absent it writes the hardcoded defaults and
returns them, so after the successful read-and-write the remote auth
document exists; and on a fetch error it returns the same defaults without
writing. -/
theorem C10_getAuthInfo_read_with_write (st : FsState) :
    (st.authDoc = none →
        fsGetAuthInfo (some st) true true =
          (INITIAL_CREDENTIALS, some { st with authDoc := some INITIAL_CREDENTIALS })) ∧
    (∀ d, st.authDoc = some d → fsGetAuthInfo (some st) true true = (d, some st)) ∧
    (∀ writeOk, fsGetAuthInfo (some st) false writeOk = (INITIAL_CREDENTIALS, some st)) ∧
    (∀ st2, (fsGetAuthInfo (some st) true true).2 = some st2 →
        st2.authDoc.isSome = true) := by
  refine ⟨?_, ?_, ?_, ?_⟩
  · intro h
    simp [fsGetAuthInfo, h]
  · intro d h
    simp [fsGetAuthInfo, h]
  · intro writeOk
    simp [fsGetAuthInfo]
  · intro st2 h
    cases hd : st.authDoc with
    | none =>
        simp [fsGetAuthInfo, hd] at h
        rw [← h]
        rfl
    | some d =>
        simp [fsGetAuthInfo, hd] at h
        rw [← h, hd]
        rfl

def c10St : FsState := { authDoc := none, events := [], wishlists := [], items := [] }

theorem C10_getAuthInfo_read_with_write_witness :
    fsGetAuthInfo (some c10St) true true =
      (INITIAL_CREDENTIALS, some { c10St with authDoc := some INITIAL_CREDENTIALS }) :=
  (C10_getAuthInfo_read_with_write c10St).1 rfl

/-! ## C8: Snapshot round trip through serialization -/

lemma decodeUserConfig_toJson (u : UserConfig) :
    decodeUserConfig (UserConfig.toJson u) = some u := by
  cases u with
  | mk username password => cases password <;> rfl

lemma decodeEvent_toJson (e : CalendarEvent) :
    decodeEvent (CalendarEvent.toJson e) = some e := by
  cases e with
  | mk id title description date category => cases category <;> rfl

lemma decodeItem_toJson (i : WishlistItem) :
    decodeItem (WishlistItem.toJson i) = some i := by
  cases i with
  | mk id listId name url description status dateAdded => cases status <;> rfl

lemma decodeList_map {α : Type} (f : α → Json) (g : Json → Option α)
    (h : ∀ a, g (f a) = some a) :
    ∀ l : List α, decodeList g (l.map f) = some l := by
  intro l
  induction l with
  | nil => rfl
  | cons a rest ih =>
      rw [List.map_cons]
      unfold decodeList
      rw [h a, ih]

/-- C8: a Snapshot survives the persist-then-fetch round trip unchanged:
decoding the serialized form of any Snapshot yields exactly that
Snapshot. -/
theorem C8_snapshot_roundtrip (s : Snapshot) :
    fetchSnapshot (persistSnapshot s) = some s := by
  cases s with
  | mk auth events wishlist lastUpdated =>
      show decodeSnapshot (Snapshot.toJson ⟨auth, events, wishlist, lastUpdated⟩) = _
      have houter : decodeSnapshot (Snapshot.toJson ⟨auth, events, wishlist, lastUpdated⟩) =
          (match decodeUserConfig (UserConfig.toJson auth),
                 decodeList decodeEvent (events.map CalendarEvent.toJson),
                 decodeList decodeItem (wishlist.map WishlistItem.toJson) with
           | some a, some es, some ws =>
               some { auth := a, events := es, wishlist := ws, lastUpdated := lastUpdated }
           | _, _, _ => none) := rfl
      rw [houter, decodeUserConfig_toJson,
        decodeList_map CalendarEvent.toJson decodeEvent decodeEvent_toJson,
        decodeList_map WishlistItem.toJson decodeItem decodeItem_toJson]

end Planly
